import Mathlib

/-!
Verification of the grounding-selection and context-assembly core of the
PanScience chat backend (`backend/main.py` and `backend/services/*.py`).

The Python source is shallowly embedded:
* Python `float` values are modelled as rationals (`ℚ`); IEEE infinities and
  NaN are outside the model.
* Python strings are Lean `String`s; `str.strip()`, `str.lower()`,
  `str.strip(ch)` and slicing are re-implemented over the character list
  (`String.data`), restricted to ASCII, which is the alphabet the heuristics
  and keyword tables of the source operate on.
* Fallible code (`try`/`except` + `continue` / early `return None`) is
  modelled with `Option` / `Except`.
* Mongo collections are modelled as in-memory lists of records; `find_one`
  becomes `List.find?` and `update_one` updates the first matching record.
-/

/-! ## Python string primitives -/

/-- Python whitespace test, restricted to the ASCII whitespace characters
Lean knows about (space, tab, carriage return, newline). -/
def pyWhite (c : Char) : Bool :=
  c == ' ' || c == '\t' || c == '\r' || c == '\n'

/-- Python `str.strip()`: drop leading and trailing whitespace. -/
def pyStrip (s : String) : String :=
  String.mk (((s.data.dropWhile pyWhite).reverse.dropWhile pyWhite).reverse)

/-- Python `str.lower()` (ASCII letters only). -/
def pyLower (s : String) : String :=
  String.mk (s.data.map Char.toLower)

/-- Python slicing `s[:n]` (by characters, like Python code points). -/
def takeChars (s : String) (n : Nat) : String :=
  String.mk (s.data.take n)

/-- Python `str.strip(c)` for a single strip character: drop every leading
and every trailing occurrence of `c`. -/
def pyStripChar (s : String) (c : Char) : String :=
  String.mk (((s.data.dropWhile (· == c)).reverse.dropWhile (· == c)).reverse)

/-! ## Segment model (`main.py`, `_build_transcript_context`)

A stored segment is a Mongo sub-document whose `start` / `end` / `text`
values may be of any Python type.  For the numeric fields only three
behaviours are observable in `float(s.get(k) or default)`:
the value is falsy (replaced by the default before `float` runs), it
coerces to a number, or `float` raises and the segment is skipped. -/

inductive FloatVal where
  /-- A falsy value (`None`, missing key, `0`, `0.0`, `""`, ...): `x or d`
  replaces it by the default. -/
  | absent : FloatVal
  /-- A truthy value that `float` coerces to `q` (a number or a numeric
  string). -/
  | coerces (q : ℚ) : FloatVal
  /-- A truthy value on which `float` raises (`TypeError`/`ValueError`). -/
  | raises : FloatVal
deriving DecidableEq

/-- `float(v or dflt)`: `none` when the coercion raises. -/
def coerceNum (v : FloatVal) (dflt : ℚ) : Option ℚ :=
  match v with
  | .absent => some dflt
  | .coerces q => some q
  | .raises => none

/-- One raw transcript segment.  `text` stands for the string
`str(s.get("text") or "")` (total in Python, so modelled directly). -/
structure Segment where
  start : FloatVal
  «end» : FloatVal
  text : String
deriving DecidableEq

/-- A segment that survived coercion and the window test (an entry of the
`chosen` list in `_build_transcript_context`). -/
structure ChosenSeg where
  start : ℚ
  «end» : ℚ
  text : String
deriving DecidableEq

/-! ## Timestamp rendering (`main.py:574`, `_seconds_to_hms`) -/

/-- Python `x % y` for `y > 0`: `x - y * floor(x / y)`. -/
def qmod (x y : ℚ) : ℚ := x - y * ⌊x / y⌋

/-- Python `f"{n:02d}"` for non-negative `n`. -/
def pad2 (n : Nat) : String :=
  if n < 10 then "0" ++ toString n else toString n

/-- `_seconds_to_hms`: clamp to `0` (`max(0.0, float(seconds))`), then
`h = int(s // 3600)`, `m = int((s % 3600) // 60)`, `s = int(s % 60)`
(`int` of a non-negative value is its floor), rendered zero-padded. -/
def _seconds_to_hms (seconds : ℚ) : String :=
  pad2 (⌊max 0 seconds / 3600⌋).toNat ++ ":" ++
  pad2 (⌊qmod (max 0 seconds) 3600 / 60⌋).toNat ++ ":" ++
  pad2 (⌊qmod (max 0 seconds) 60⌋).toNat

/-! ## Transcript windower (`main.py:582`, `_build_transcript_context`) -/

/-- `a <= et` where `et = float(end_time)` or `+inf` when `end_time` is
`None` (`none` plays the role of `+inf`). -/
def leEt (a : ℚ) : Option ℚ → Bool
  | none => true
  | some e => decide (a ≤ e)

/-- The `for s in segments` loop of `_build_transcript_context`: coercion
failures and blank texts `continue`; a segment passing the overlap test is
appended whole to `chosen`. -/
def segLoop (st : ℚ) (et : Option ℚ) : List Segment → List ChosenSeg
  | [] => []
  | s :: rest =>
    match coerceNum s.start 0 with
    | none => segLoop st et rest
    | some a =>
      match coerceNum s.«end» a with
      | none => segLoop st et rest
      | some b =>
        let txt := pyStrip s.text
        if txt = "" then segLoop st et rest
        else if decide (st ≤ b) && leEt a et then
          ⟨a, b, txt⟩ :: segLoop st et rest
        else segLoop st et rest

/-- Spec-side, per-segment form of the windower (one `Option` result per
segment, §4.1 of the spec): a segment contributes exactly when its start
and end coerce, its trimmed text is non-empty, and it overlaps the window
(`end ≥ st` and `start ≤ et`); it is then kept whole. -/
def includeSeg (st : ℚ) (et : Option ℚ) (s : Segment) : Option ChosenSeg :=
  match coerceNum s.start 0 with
  | none => none
  | some a =>
    match coerceNum s.«end» a with
    | none => none
    | some b =>
      if pyStrip s.text = "" then none
      else if decide (st ≤ b) && leEt a et then some ⟨a, b, pyStrip s.text⟩
      else none

/-- One rendered transcript line `[HH:MM:SS - HH:MM:SS] <text>`. -/
def renderSegLine (c : ChosenSeg) : String :=
  "[" ++ _seconds_to_hms c.start ++ " - " ++ _seconds_to_hms c.«end» ++ "] " ++ c.text

/-- `_build_transcript_context`: window the segments, render one line per
chosen segment, join with newlines, and hard-cut at 120000 characters. -/
def _build_transcript_context (segments : List Segment)
    (start_time end_time : Option ℚ) : String :=
  let st : ℚ := match start_time with | some q => q | none => 0
  match segLoop st end_time segments with
  | [] => ""
  | chosen => takeChars (String.intercalate "\n" (chosen.map renderSegLine)) 120000

/-! ## Clock-time pattern (`main.py:247`, `_TS_RE`)

`_TS_RE = re.compile(r"\b\d{1,2}:\d{2}(?::\d{2})?\b")` and
`_TS_RE.search(text)`.  `\d` and `\w` are modelled over ASCII. -/

/-- `\d` (ASCII). -/
def isDigitChar (c : Char) : Bool := c.isDigit

/-- `\w` (ASCII): letters, digits, underscore. -/
def isWordChar (c : Char) : Bool := c.isAlphanum || c == '_'

/-- `\b` seen from the left of a digit: the previous character (if any)
must not be a word character. -/
def boundaryBeforeB : Option Char → Bool
  | none => true
  | some c => !isWordChar c

/-- `\b` seen from the right of a digit: the next character (if any) must
not be a word character. -/
def boundaryAfterB : List Char → Bool
  | [] => true
  | c :: _ => !isWordChar c

/-- The optional `(?::\d{2})?` followed by the closing `\b`; backtracking
over the optional group becomes a disjunction. -/
def tsTail (cs : List Char) : Bool :=
  (match cs with
   | c :: f1 :: f2 :: rest =>
     c == ':' && isDigitChar f1 && isDigitChar f2 && boundaryAfterB rest
   | _ => false)
  || boundaryAfterB cs

/-- What remains after `\d{1,2}:` — the mandatory `\d{2}` then `tsTail`. -/
def tsAfterColon : List Char → Bool
  | e1 :: e2 :: rest => isDigitChar e1 && isDigitChar e2 && tsTail rest
  | _ => false

/-- After the first digit: a second digit then `:` then the rest of the
pattern (the two-digit reading of `\d{1,2}`). -/
def tsTwoDigit : List Char → Bool
  | d2 :: c :: rest2 => isDigitChar d2 && (c == ':') && tsAfterColon rest2
  | _ => false

/-- After the first digit: `:` immediately (the one-digit reading of
`\d{1,2}`). -/
def tsOneDigit : List Char → Bool
  | c :: rest2 => (c == ':') && tsAfterColon rest2
  | _ => false

/-- Match `\d{1,2}:\d{2}(?::\d{2})?\b` at the head of `cs` (the leading
`\b` is checked by the caller); `\d{1,2}` backtracks, hence the
disjunction over the two- and one-digit readings. -/
def tsMatchCore : List Char → Bool
  | d1 :: rest1 => isDigitChar d1 && (tsTwoDigit rest1 || tsOneDigit rest1)
  | [] => false

/-- `re.search`: try the pattern at every position, tracking the previous
character for the left `\b`. -/
def tsSearch (prev : Option Char) : List Char → Bool
  | [] => false
  | c :: rest =>
    (boundaryBeforeB prev && tsMatchCore (c :: rest)) || tsSearch (some c) rest

/-! Spec-side formulation of the same pattern as an explicit decomposition
of the character list (the wording of §4.2: "matches a clock-time pattern
`\d{1,2}:\d{2}(:\d{2})?`, word-bounded"). -/

/-- All characters are ASCII digits. -/
def DigitStr (l : List Char) : Prop := ∀ c ∈ l, isDigitChar c = true

/-- The characters of one clock-time token `\d{1,2}:\d{2}(:\d{2})?`. -/
def timeToken (d e : List Char) (f : Option (List Char)) : List Char :=
  d ++ ':' :: e ++ (match f with | none => [] | some g => ':' :: g)

/-- The pattern matches at the head of `cs` (right `\b` included). -/
def ClockTimeAt (cs : List Char) : Prop :=
  ∃ d e f post, cs = timeToken d e f ++ post ∧
    DigitStr d ∧ (d.length = 1 ∨ d.length = 2) ∧
    DigitStr e ∧ e.length = 2 ∧
    (∀ g, f = some g → DigitStr g ∧ g.length = 2) ∧
    boundaryAfterB post = true

/-- The previous character after consuming `pre`, starting from `prev`. -/
def lastCharAfter (prev : Option Char) : List Char → Option Char
  | [] => prev
  | c :: cs => lastCharAfter (some c) cs

/-- The pattern matches somewhere in `cs`, each side word-bounded. -/
def HasClockTime (cs : List Char) : Prop :=
  ∃ pre rest, cs = pre ++ rest ∧
    boundaryBeforeB (lastCharAfter none pre) = true ∧ ClockTimeAt rest

/-! ## Keyword containment (`main.py:262`) -/

/-- The fixed keyword tuple of `_looks_transcript_related`. -/
def transcriptKeywords : List String :=
  ["transcript", "recording", "audio", "video", "clip", "attached",
   "the file", "timestamp", "timecode", "minute", "minutes", "second",
   "seconds"]

/-- `needle` begins `hay` (scanner used by `containsSub`). -/
def leadsWith : List Char → List Char → Bool
  | [], _ => true
  | _ :: _, [] => false
  | a :: as, b :: bs => a == b && leadsWith as bs

/-- Python `needle in hay` (substring containment) as a left-to-right
scan. -/
def containsSub (hay needle : List Char) : Bool :=
  leadsWith needle hay ||
    match hay with
    | [] => false
    | _ :: t => containsSub t needle

/-! ## Transcript-relatedness heuristic (`main.py:250`) -/

/-- `_looks_transcript_related(message, start_time=..., end_time=...)`. -/
def _looks_transcript_related (message : String)
    (start_time end_time : Option ℚ) : Bool :=
  if start_time.isSome || end_time.isSome then true
  else
    let text := pyLower (pyStrip message)
    if text = "" then false
    else if tsSearch none text.data then true
    else transcriptKeywords.any (fun k => containsSub text.data k.data)

/-! ## ObjectId and Mongo-backed stores
(`services/conversation_store.py`, `services/transcript_store.py`,
`services/document_store.py`)

`_oid(value) = ObjectId(value)` succeeds on a string exactly when it is 24
hexadecimal characters; every store wraps it in `try/except` and returns
`None` (here: the functions are total and return `none`). -/

/-- A string is accepted by `bson.ObjectId`: 24 hex digits. -/
def isValidObjectId (s : String) : Bool :=
  s.data.length == 24 &&
    s.data.all (fun c =>
      c.isDigit || ('a' ≤ c && c ≤ 'f') || ('A' ≤ c && c ≤ 'F'))

/-- One document of the `conversations` collection (the fields the core
reads and writes; `id` is the string form of `_id`). -/
structure ConvRecord where
  id : String
  user_id : String
  title : String
deriving DecidableEq

/-- One document of the `media_transcripts` collection. -/
structure TranscriptRecord where
  id : String
  user_id : String
  segments : List Segment
deriving DecidableEq

/-- One document of the `parsed_documents` collection.  `format` models
`metadata.get("format")` (`none` when the metadata has no such key);
`content` and `filename` model the stored strings. -/
structure DocumentRecord where
  id : String
  user_id : String
  content : String
  filename : String
  format : Option String
deriving DecidableEq

/-- `conversation_store.get_conversation`: invalid id → `None`, else
`find_one({"_id": oid, "user_id": user_id})`. -/
def get_conversation (db : List ConvRecord) (user_id conversation_id : String) :
    Option ConvRecord :=
  if isValidObjectId conversation_id then
    db.find? (fun c => c.id == conversation_id && c.user_id == user_id)
  else none

/-- `transcript_store.get_transcript`. -/
def get_transcript (db : List TranscriptRecord) (user_id transcript_id : String) :
    Option TranscriptRecord :=
  if isValidObjectId transcript_id then
    db.find? (fun t => t.id == transcript_id && t.user_id == user_id)
  else none

/-- `document_store.get_document`. -/
def get_document (db : List DocumentRecord) (user_id document_id : String) :
    Option DocumentRecord :=
  if isValidObjectId document_id then
    db.find? (fun d => d.id == document_id && d.user_id == user_id)
  else none

/-! ## Grounding selection and prompt assembly (`main.py:370`, `chat`) -/

/-- The chat request body (`ChatRequest` pydantic model); optional fields
are `None` when omitted. -/
structure ChatRequest where
  message : String
  conversation_id : Option String
  transcript_id : Option String
  document_id : Option String
  start_time : Option ℚ
  end_time : Option ℚ
deriving DecidableEq

/-- Python truthiness of an `Optional[str]` (`bool(x)`): `None` and the
empty string are falsy. -/
def optStrTruthy : Option String → Bool
  | none => false
  | some s => !(s == "")

/-- The grounding decision of the `chat` handler. -/
inductive Grounding where
  | none : Grounding
  | document : Grounding
  | transcript : Grounding
deriving DecidableEq

/-- `use_document = bool(request.document_id)`;
`use_transcript = bool(request.transcript_id and _looks_transcript_related(...))`;
branch order `if use_document: ... elif use_transcript: ... else: ...`. -/
def groundingDecision (r : ChatRequest) : Grounding :=
  if optStrTruthy r.document_id then .document
  else if optStrTruthy r.transcript_id &&
      _looks_transcript_related r.message r.start_time r.end_time then .transcript
  else .none

/-- The fixed truncation marker appended to an over-long document
(`main.py:434`). -/
def truncationMarker : String :=
  "\n\n[Content truncated for context window...]"

/-- `if len(doc_content) > 50_000: doc_content = doc_content[:50_000] + marker`. -/
def truncateDocContent (doc_content : String) : String :=
  if 50000 < doc_content.length then takeChars doc_content 50000 ++ truncationMarker
  else doc_content

/-- System prompt of the document-grounded branch. -/
def docSystemPrompt : String :=
  "You are PanScience, a helpful conversational AI assistant. " ++
  "When analyzing documents, provide clear summaries and accurate information. " ++
  "Be concise, accurate, and friendly."

/-- System prompt of the transcript-grounded branch. -/
def transcriptSystemPrompt : String :=
  "You are PanScience, a helpful conversational AI assistant. " ++
  "If the user\x27s message contains a Transcript section, you MUST use only that Transcript for facts " ++
  "and ignore earlier conversation history for factual claims. " ++
  "Be concise, accurate, and friendly."

/-- The document-grounded user prompt (`main.py:436`). -/
def docPrompt (filename format question content : String) : String :=
  "You are given the contents of a document: " ++ filename ++ "\n" ++
  "Format: " ++ format ++ "\n\n" ++
  "Answer the user\x27s question using the document content below. " ++
  "Provide summaries, extract information, or answer questions based on the document. " ++
  "If the answer is not in the document, say so clearly.\n\n" ++
  "Question: " ++ question ++ "\n\n" ++
  "Document Content:\n" ++ content ++ "\n\n" ++
  "Answer:"

/-- The optional human-readable time-window clause (`main.py:471`).  The
numeric rendering uses the rational `toString` in place of Python float
formatting; no claim depends on the digits. -/
def windowClause (st et : Option ℚ) : String :=
  if st = Option.none ∧ et = Option.none then ""
  else
    " Time window: " ++ toString (st.getD 0) ++ "s to " ++
      (match et with | some e => toString e | Option.none => "end") ++ "s."

/-- The transcript-grounded user prompt (`main.py:477`). -/
def transcriptPrompt (question : String) (st et : Option ℚ) (context : String) : String :=
  "You are given a transcript from an audio/video recording with timestamps." ++
  windowClause st et ++ " " ++
  "Answer the user\x27s question using ONLY the transcript content below. " ++
  "Do not mention any limitations about accessing media files; you already have the transcript. " ++
  "If the answer is not present in the transcript, say exactly: Not stated in the recording. " ++
  "When you make a factual claim, include at least one supporting timestamp range in brackets.\n\n" ++
  "Question: " ++ question ++ "\n\n" ++
  "Transcript:\n" ++ context ++ "\n\n" ++
  "Answer (with timestamps):"

/-- What the handler sends to the LLM: the `user_message` argument and the
`system_prompt` argument (`none` = the service default). -/
structure LLMCall where
  user_message : String
  system_prompt : Option String
deriving DecidableEq

/-- A raised `HTTPException(status_code, detail)`.  The 400/404s raised
*inside* the handler's `try` block are not what the client sees: the
`except` clauses at `main.py:506-511` rewrite them (see
`chatClientVisible`). -/
inductive HttpError where
  | e400 (detail : String) : HttpError
  | e404 (detail : String) : HttpError
  | e500 (detail : String) : HttpError
deriving DecidableEq

/-- The body of the `try` block of the `chat` handler (`main.py:410-505`):
everything between the grounding decision and the single LLM call.  An
`Except.error` is an `HTTPException` raised inside the `try` block before
any LLM call — it is subsequently rewritten by the `except` clauses
(`chatClientVisible`), so it is *not* the client-visible condition;
`Except.ok` carries the prompt pair handed to
`generate_chat_response_with_history`. -/
def chatGroundedCall (r : ChatRequest) (docs : List DocumentRecord)
    (transcripts : List TranscriptRecord) (uid : String) :
    Except HttpError LLMCall :=
  let use_transcript := optStrTruthy r.transcript_id &&
    _looks_transcript_related r.message r.start_time r.end_time
  let use_document := optStrTruthy r.document_id
  if use_document then
    match get_document docs uid (r.document_id.getD "") with
    | Option.none => .error (.e404 "Document not found")
    | some ddoc =>
      let doc_content := truncateDocContent ddoc.content
      .ok ⟨docPrompt ddoc.filename (ddoc.format.getD "Unknown")
             (pyStrip r.message) doc_content,
           some docSystemPrompt⟩
  else if use_transcript then
    match get_transcript transcripts uid (r.transcript_id.getD "") with
    | Option.none => .error (.e404 "Transcript not found")
    | some tdoc =>
      let context := _build_transcript_context tdoc.segments r.start_time r.end_time
      if context = "" then
        .error (.e400 "No transcript content in the requested time range")
      else
        .ok ⟨transcriptPrompt (pyStrip r.message) r.start_time r.end_time context,
             some transcriptSystemPrompt⟩
  else .ok ⟨r.message, Option.none⟩

/-- Python `str(e)` for a starlette/FastAPI `HTTPException`:
`__str__` renders `"{status_code}: {detail}"` (starlette ≥ 0.16; the
repository uses pydantic v2 `model_dump`, which pins FastAPI ≥ 0.100 /
starlette ≥ 0.27). -/
def httpExcStr : HttpError → String
  | .e400 detail => "400: " ++ detail
  | .e404 detail => "404: " ++ detail
  | .e500 detail => "500: " ++ detail

/-- The grounding phase as the client sees it (`main.py:410-511`): the
`try` body plus its `except` clauses.  `HTTPException` subclasses
`Exception`, not `RuntimeError`, and there is no `except HTTPException:
raise` clause, so the 400/404s raised inside the `try` block are caught
by the blanket `except Exception as e` at `main.py:509` and re-raised as
`HTTPException(500, f"Failed to generate response: {e}")`. -/
def chatClientVisible (r : ChatRequest) (docs : List DocumentRecord)
    (transcripts : List TranscriptRecord) (uid : String) :
    Except HttpError LLMCall :=
  match chatGroundedCall r docs transcripts uid with
  | .ok call => .ok call
  | .error e => .error (.e500 ("Failed to generate response: " ++ httpExcStr e))

/-! ## Chat service (`services/chat_service.py`) -/

/-- LangChain message roles used by the service. -/
inductive Role where
  | system : Role
  | user : Role
  | assistant : Role
deriving DecidableEq

/-- One message handed to `llm.invoke`. -/
structure LCMsg where
  role : Role
  content : String
deriving DecidableEq

/-- Outcome of `generate_chat_response_with_history`: either an early
`return` with a value (before the LLM client is even constructed), or an
invocation of the LLM with the assembled message list. -/
inductive SvcOutcome where
  | ret (value : String) : SvcOutcome
  | invokeLLM (msgs : List LCMsg) : SvcOutcome
deriving DecidableEq

/-- Default system prompt of the chat service. -/
def defaultSystemPrompt : String :=
  "You are PanScience, a helpful conversational AI assistant. " ++
  "Be concise, accurate, and friendly."

/-- The history loop: keep the most recent `maxHist` entries
(`list(history)[-max_history_messages:]`), skip blank texts, map
`"assistant"` to the AI role and everything else to the user role. -/
def buildHistoryMsgs (history : List (String × String)) (maxHist : Nat) : List LCMsg :=
  (history.drop (history.length - maxHist)).filterMap (fun item =>
    if pyStrip item.2 = "" then none
    else if pyLower (pyStrip item.1) = "assistant" then some ⟨Role.assistant, item.2⟩
    else some ⟨Role.user, item.2⟩)

/-- `generate_chat_response_with_history` up to the LLM invocation.
History items are `(sender, text)` pairs; `conversation_id` is accepted
and ignored, exactly as in the source. -/
def generate_chat_response_with_history (history : List (String × String))
    (user_message : String) (conversation_id : String)
    (system_prompt : Option String) (max_history_messages : Nat) : SvcOutcome :=
  if pyStrip user_message = "" then .ret ""
  else
    let sp := match system_prompt with
      | some s => if s = "" then defaultSystemPrompt else s
      | none => defaultSystemPrompt
    .invokeLLM (⟨Role.system, sp⟩ ::
      (buildHistoryMsgs history max_history_messages ++ [⟨Role.user, user_message⟩]))

/-! ## Title generation (`services/chat_service.py:136`,
`generate_chat_title`)

The LLM reply is an input (`llm_title`); the function models everything
around the `llm.invoke` call.  Note the source calls `_get_llm()` (client
construction) before the empty-input guard, but the guard returns before
any `invoke`. -/

/-- Post-processing applied to the raw LLM title:
`strip()`, `strip(\x27"\x27)`, `strip("\x27")`, newline collapsing, re-strip,
placeholder fallback, 80-character clamp. -/
def cleanTitle (title_text : String) : String :=
  let cleaned := pyStripChar (pyStripChar (pyStrip title_text) (Char.ofNat 34)) (Char.ofNat 39)
  let cleaned := pyStrip (String.mk (cleaned.data.map
    (fun ch => if ch == '\r' || ch == '\n' then ' ' else ch)))
  if cleaned = "" then "New Chat" else takeChars cleaned 80

/-- Does `generate_chat_title` reach `llm.invoke`?  (`False` on the
early-return path.) -/
def titleInvokesLLM (first_user_message first_assistant_message : String) : Bool :=
  !(pyStrip first_user_message = "" && pyStrip first_assistant_message = "")

/-- `generate_chat_title(first_user_message, first_assistant_message)`
with the LLM reply supplied as `llm_title`. -/
def generate_chat_title (first_user_message first_assistant_message llm_title : String) :
    String :=
  let user_text := pyStrip first_user_message
  let assistant_text := pyStrip first_assistant_message
  if user_text = "" ∧ assistant_text = "" then "New Chat"
  else cleanTitle llm_title

/-! ## Placeholder-guarded title update
(`services/conversation_store.py:119`) -/

/-- The default placeholder list. -/
def placeholderTitles : List String := ["New Chat", "Chat", "Conversation"]

/-- The `update_one` filter
`{"_id": oid, "user_id": user_id, "title": {"$in": placeholders}}`. -/
def convPlaceholderMatch (user_id conversation_id : String) (c : ConvRecord) : Bool :=
  c.id == conversation_id && c.user_id == user_id &&
    placeholderTitles.contains c.title

/-- `update_one`: rewrite the first record matching `p` with `f`; also
return the matched record (to compute `modified_count`). -/
def updateFirstRec (p : ConvRecord → Bool) (f : ConvRecord → ConvRecord) :
    List ConvRecord → List ConvRecord × Option ConvRecord
  | [] => ([], none)
  | c :: rest =>
    if p c then (f c :: rest, some c)
    else
      let r := updateFirstRec p f rest
      (c :: r.1, r.2)

/-- `update_conversation_title_if_placeholder`: invalid id → `(db, False)`;
otherwise the conditional `update_one` with `$set: {title}`; the returned
Bool is `modified_count == 1`. -/
def update_conversation_title_if_placeholder (db : List ConvRecord)
    (user_id conversation_id title : String) : List ConvRecord × Bool :=
  if isValidObjectId conversation_id then
    let r := updateFirstRec (convPlaceholderMatch user_id conversation_id)
      (fun c => { c with title := title }) db
    (r.1, match r.2 with | some c => decide (¬ c.title = title) | none => false)
  else (db, false)

/-! ## Claim-side formulation of the title post-processing (§4.4 / C8)

The claim says a *single layer* of surrounding quote characters is
stripped.  That reading is formalised here so it can be compared with the
source behaviour (`cleanTitle`), which strips *all* surrounding quote
characters of each kind. -/

/-- A quote character (double or single quote). -/
def quoteCharB (c : Char) : Bool := c == Char.ofNat 34 || c == Char.ofNat 39

/-- Drop one leading quote character, if present. -/
def dropOneLeadQuote : List Char → List Char
  | [] => []
  | c :: rest => if quoteCharB c then rest else c :: rest

/-- Strip one layer of surrounding quote characters: at most one from the
front and at most one from the back. -/
def stripOneLayerQuotes (s : String) : String :=
  String.mk (dropOneLeadQuote ((dropOneLeadQuote s.data.reverse)).reverse)

/-- The claim-as-written post-processing of a non-trivial title: strip
whitespace, strip a single layer of surrounding quotes, collapse newlines
and carriage returns to spaces, clamp to 80 characters. -/
def titleClaimPost (llm_title : String) : String :=
  takeChars (String.mk ((stripOneLayerQuotes (pyStrip llm_title)).data.map
    (fun ch => if ch == '\r' || ch == '\n' then ' ' else ch))) 80

/-! ## Theorems -/

theorem takeChars_length (s : String) (n : Nat) : (takeChars s n).length ≤ n := by
  show (s.data.take n).length ≤ n
  simp

/-! ### Basic facts about the Python modulo on rationals -/

theorem qmod_nonneg (x : ℚ) {y : ℚ} (hy : 0 < y) : 0 ≤ qmod x y := by
  have h1 : ((⌊x / y⌋ : ℤ) : ℚ) ≤ x / y := Int.floor_le _
  have h2 : y * (x / y) = x := by field_simp
  have h3 : y * ((⌊x / y⌋ : ℤ) : ℚ) ≤ y * (x / y) :=
    mul_le_mul_of_nonneg_left h1 hy.le
  rw [h2] at h3
  simp only [qmod]
  linarith

theorem qmod_lt (x : ℚ) {y : ℚ} (hy : 0 < y) : qmod x y < y := by
  have h1 : x / y < ((⌊x / y⌋ : ℤ) : ℚ) + 1 := Int.lt_floor_add_one _
  have h2 : y * (x / y) = x := by field_simp
  have h3 : y * (x / y) < y * (((⌊x / y⌋ : ℤ) : ℚ) + 1) :=
    mul_lt_mul_of_pos_left h1 hy
  rw [h2] at h3
  simp only [qmod]
  nlinarith

/-- C6: the timestamp formatter renders `3725.0` as `"01:02:05"` and `0.0`
as `"00:00:00"`, clamps every negative input to `"00:00:00"`, and on every
non-negative input produces a zero-padded `HH:MM:SS` string whose fields
`h`, `m < 60`, `s < 60` decompose the floor of the input as
`3600 h + 60 m + s`. -/
theorem seconds_to_hms_spec (q : ℚ) :
    _seconds_to_hms 3725 = "01:02:05"
  ∧ _seconds_to_hms 0 = "00:00:00"
  ∧ (q < 0 → _seconds_to_hms q = "00:00:00")
  ∧ (0 ≤ q → ∃ h m s : ℕ, m < 60 ∧ s < 60 ∧
      ((h : ℤ) * 3600 + (m : ℤ) * 60 + (s : ℤ) = ⌊q⌋) ∧
      _seconds_to_hms q = pad2 h ++ ":" ++ pad2 m ++ ":" ++ pad2 s) := by
  refine ⟨?_, ?_, ?_, ?_⟩
  · have hmax : max (0:ℚ) 3725 = 3725 := by norm_num
    have e1 : ⌊(3725:ℚ) / 3600⌋ = 1 := by norm_num [Int.floor_eq_iff]
    have e2 : qmod (3725:ℚ) 3600 = 125 := by rw [qmod, e1]; norm_num
    have e3 : ⌊(125:ℚ) / 60⌋ = 2 := by norm_num [Int.floor_eq_iff]
    have e4 : ⌊(3725:ℚ) / 60⌋ = 62 := by norm_num [Int.floor_eq_iff]
    have e5 : qmod (3725:ℚ) 60 = 5 := by rw [qmod, e4]; norm_num
    have e6 : ⌊(5:ℚ)⌋ = 5 := by norm_num
    rw [_seconds_to_hms, hmax, e1, e2, e5, e3, e6]
    decide
  · have hmax : max (0:ℚ) 0 = 0 := by norm_num
    have e1 : ⌊(0:ℚ) / 3600⌋ = 0 := by norm_num
    have e2 : qmod (0:ℚ) 3600 = 0 := by rw [qmod, e1]; norm_num
    have e4 : ⌊(0:ℚ) / 60⌋ = 0 := by norm_num
    have e5 : qmod (0:ℚ) 60 = 0 := by rw [qmod, e4]; norm_num
    have e6 : ⌊(0:ℚ)⌋ = 0 := by norm_num
    rw [_seconds_to_hms, hmax, e2, e5, e1, e6, e4]
    decide
  · intro hq
    have hmax : max (0:ℚ) q = 0 := max_eq_left hq.le
    have e1 : ⌊(0:ℚ) / 3600⌋ = 0 := by norm_num
    have e2 : qmod (0:ℚ) 3600 = 0 := by rw [qmod, e1]; norm_num
    have e4 : ⌊(0:ℚ) / 60⌋ = 0 := by norm_num
    have e5 : qmod (0:ℚ) 60 = 0 := by rw [qmod, e4]; norm_num
    have e6 : ⌊(0:ℚ)⌋ = 0 := by norm_num
    rw [_seconds_to_hms, hmax, e2, e5, e1, e6, e4]
    decide
  · intro hq
    have hmax : max (0:ℚ) q = q := max_eq_right hq
    have h36 : (0:ℚ) < 3600 := by norm_num
    have h60 : (0:ℚ) < 60 := by norm_num
    have hr0 : 0 ≤ qmod q 3600 := qmod_nonneg q h36
    have hr1 : qmod q 3600 < 3600 := qmod_lt q h36
    have hs0 : 0 ≤ qmod q 60 := qmod_nonneg q h60
    have hs1 : qmod q 60 < 60 := qmod_lt q h60
    have hH0 : 0 ≤ ⌊q / 3600⌋ := Int.floor_nonneg.mpr (div_nonneg hq h36.le)
    have hM0 : 0 ≤ ⌊qmod q 3600 / 60⌋ :=
      Int.floor_nonneg.mpr (div_nonneg hr0 h60.le)
    have hM60 : ⌊qmod q 3600 / 60⌋ < 60 := by
      apply Int.floor_lt.mpr
      push_cast
      rw [div_lt_iff₀ h60]
      linarith
    have hS0 : 0 ≤ ⌊qmod q 60⌋ := Int.floor_nonneg.mpr hs0
    have hS60 : ⌊qmod q 60⌋ < 60 := by
      apply Int.floor_lt.mpr
      push_cast
      linarith
    have hfq : ⌊q⌋ = ⌊qmod q 3600⌋ + 3600 * ⌊q / 3600⌋ := by
      have hsplit : q = qmod q 3600 + ((3600 * ⌊q / 3600⌋ : ℤ) : ℚ) := by
        rw [qmod]; push_cast; ring
      calc ⌊q⌋ = ⌊qmod q 3600 + ((3600 * ⌊q / 3600⌋ : ℤ) : ℚ)⌋ := by rw [← hsplit]
        _ = ⌊qmod q 3600⌋ + 3600 * ⌊q / 3600⌋ := Int.floor_add_int _ _
    have h60div : ⌊q / 60⌋ = ⌊qmod q 3600 / 60⌋ + 60 * ⌊q / 3600⌋ := by
      have hsplit : q / 60 = qmod q 3600 / 60 + ((60 * ⌊q / 3600⌋ : ℤ) : ℚ) := by
        rw [qmod]; push_cast; ring
      calc ⌊q / 60⌋ = ⌊qmod q 3600 / 60 + ((60 * ⌊q / 3600⌋ : ℤ) : ℚ)⌋ := by
            rw [← hsplit]
        _ = ⌊qmod q 3600 / 60⌋ + 60 * ⌊q / 3600⌋ := Int.floor_add_int _ _
    have hinner : qmod (qmod q 3600) 60 =
        qmod q 3600 - 60 * ((⌊qmod q 3600 / 60⌋ : ℤ) : ℚ) := rfl
    have hmodeq : qmod q 60 = qmod (qmod q 3600) 60 := by
      have hl : qmod q 60 = q - 60 * ((⌊q / 60⌋ : ℤ) : ℚ) := rfl
      have hr : qmod q 3600 = q - 3600 * ((⌊q / 3600⌋ : ℤ) : ℚ) := rfl
      rw [hl, hinner, h60div, hr]
      push_cast
      ring
    have hfr : ⌊qmod q 3600⌋ =
        ⌊qmod (qmod q 3600) 60⌋ + 60 * ⌊qmod q 3600 / 60⌋ := by
      have hsplit : qmod q 3600 =
          qmod (qmod q 3600) 60 + ((60 * ⌊qmod q 3600 / 60⌋ : ℤ) : ℚ) := by
        rw [hinner]; push_cast; ring
      calc ⌊qmod q 3600⌋
          = ⌊qmod (qmod q 3600) 60 + ((60 * ⌊qmod q 3600 / 60⌋ : ℤ) : ℚ)⌋ := by
            rw [← hsplit]
        _ = ⌊qmod (qmod q 3600) 60⌋ + 60 * ⌊qmod q 3600 / 60⌋ :=
            Int.floor_add_int _ _
    have hdecomp : 3600 * ⌊q / 3600⌋ + 60 * ⌊qmod q 3600 / 60⌋ + ⌊qmod q 60⌋ = ⌊q⌋ := by
      rw [hmodeq, hfq, hfr]; ring
    refine ⟨(⌊q / 3600⌋).toNat, (⌊qmod q 3600 / 60⌋).toNat, (⌊qmod q 60⌋).toNat,
      ?_, ?_, ?_, ?_⟩
    · omega
    · omega
    · omega
    · rw [_seconds_to_hms, hmax]

/-! ### C9 — empty user message short-circuits the chat service -/

/-- C9: `generate_chat_response_with_history` returns the empty string,
before the LLM client is constructed or invoked (`SvcOutcome.ret ""` is
the early-return path that precedes `_get_llm()`), whenever the user
message is empty or whitespace-only — regardless of history, system
prompt, conversation id or history cap. -/
theorem chat_with_history_empty_message (history : List (String × String))
    (user_message conversation_id : String) (system_prompt : Option String)
    (max_history_messages : Nat) (h : pyStrip user_message = "") :
    generate_chat_response_with_history history user_message conversation_id
      system_prompt max_history_messages = SvcOutcome.ret "" := by
  simp [generate_chat_response_with_history, h]

theorem chat_with_history_empty_message_witness :
    pyStrip "  \n " = "" ∧
    generate_chat_response_with_history [("user", "hi")] "  \n " "c1"
      (some "sys") 40 = SvcOutcome.ret "" :=
  ⟨by decide,
   chat_with_history_empty_message [("user", "hi")] "  \n " "c1" (some "sys") 40
     (by decide)⟩

/-! ### C10 — malformed ObjectIds yield `None`, not an exception -/

/-- C10: for every id string that `bson.ObjectId` rejects, each of
`get_conversation`, `get_transcript` and `get_document` returns `none`
(the stores catch the `InvalidId` exception and return `None`; the
embedding is total, so no exception can escape). -/
theorem stores_invalid_objectid_none (s : String)
    (h : isValidObjectId s = false) :
    (∀ db uid, get_conversation db uid s = none)
  ∧ (∀ db uid, get_transcript db uid s = none)
  ∧ (∀ db uid, get_document db uid s = none) := by
  refine ⟨?_, ?_, ?_⟩ <;> intro db uid <;>
    simp [get_conversation, get_transcript, get_document, h]

theorem stores_invalid_objectid_none_witness :
    isValidObjectId "definitely-not-an-oid" = false ∧
    get_conversation [] "u" "definitely-not-an-oid" = none ∧
    get_transcript [] "u" "definitely-not-an-oid" = none ∧
    get_document [] "u" "definitely-not-an-oid" = none :=
  ⟨by decide,
   (stores_invalid_objectid_none "definitely-not-an-oid" (by decide)).1 [] "u",
   (stores_invalid_objectid_none "definitely-not-an-oid" (by decide)).2.1 [] "u",
   (stores_invalid_objectid_none "definitely-not-an-oid" (by decide)).2.2 [] "u"⟩

/-! ### C4 — context size bounds -/

/-- Unfolding lemma for `_build_transcript_context` (the effective window
start is `start_time or 0.0`). -/
theorem build_context_eq (segments : List Segment) (st et : Option ℚ) :
    _build_transcript_context segments st et =
      (match segLoop (st.getD 0) et segments with
       | [] => ""
       | chosen =>
         takeChars (String.intercalate "\n" (chosen.map renderSegLine)) 120000) := by
  cases st <;> rfl

/-- C4: the rendered transcript context never exceeds 120000 characters
(silent hard cut, nothing appended), and the document content embedded in
the document-grounded prompt is the stored content when it is at most
50000 characters, and otherwise its first 50000 characters followed by
exactly the fixed truncation marker — hence never longer than 50000
characters plus the marker. -/
theorem context_truncation_bounds :
    (∀ segments st et, (_build_transcript_context segments st et).length ≤ 120000)
  ∧ (∀ content : String, 50000 < content.length →
      truncateDocContent content = takeChars content 50000 ++ truncationMarker)
  ∧ (∀ content : String, content.length ≤ 50000 →
      truncateDocContent content = content)
  ∧ (∀ content : String,
      (truncateDocContent content).length ≤ 50000 + truncationMarker.length) := by
  refine ⟨?_, ?_, ?_, ?_⟩
  · intro segments st et
    rw [build_context_eq]
    rcases segLoop (st.getD 0) et segments with _ | ⟨c, rest⟩
    · decide
    · exact takeChars_length _ _
  · intro content h
    simp [truncateDocContent, h]
  · intro content h
    have : ¬ 50000 < content.length := by omega
    simp [truncateDocContent, this]
  · intro content
    rw [truncateDocContent]
    split
    · rw [String.length_append]
      have := takeChars_length content 50000
      omega
    · have h : content.length ≤ 50000 := by omega
      omega

theorem context_truncation_bounds_witness :
    ("abc" : String).length ≤ 50000 ∧ truncateDocContent "abc" = "abc" :=
  ⟨by decide, context_truncation_bounds.2.2.1 "abc" (by decide)⟩

/-! ### C1 — grounding decision of the chat handler -/

/-- C1: the chat handler selects Document grounding whenever `document_id`
is present (a non-empty string — Python truthiness; unconditional, even if
`transcript_id` is also present), else Transcript grounding when
`transcript_id` is present and the heuristic fires, and otherwise no
grounding — in which case the raw request message is passed verbatim as
the LLM user prompt, with the default system prompt. -/
theorem grounding_decision_spec (r : ChatRequest) :
    (optStrTruthy r.document_id = true → groundingDecision r = Grounding.document)
  ∧ (optStrTruthy r.document_id = false →
      optStrTruthy r.transcript_id = true →
      _looks_transcript_related r.message r.start_time r.end_time = true →
      groundingDecision r = Grounding.transcript)
  ∧ (optStrTruthy r.document_id = false →
      (optStrTruthy r.transcript_id &&
        _looks_transcript_related r.message r.start_time r.end_time) = false →
      groundingDecision r = Grounding.none
      ∧ ∀ docs transcripts uid,
          chatGroundedCall r docs transcripts uid =
            Except.ok ⟨r.message, Option.none⟩) := by
  refine ⟨?_, ?_, ?_⟩
  · intro h
    simp [groundingDecision, h]
  · intro h1 h2 h3
    simp [groundingDecision, h1, h2, h3]
  · intro h1 h2
    refine ⟨by simp [groundingDecision, h1, h2], ?_⟩
    intro docs transcripts uid
    simp [chatGroundedCall, h1, h2]

theorem grounding_decision_spec_witness :
    optStrTruthy (some "d1") = true ∧
    groundingDecision
      ⟨"hi", none, some "t1", some "d1", none, none⟩ = Grounding.document :=
  ⟨by decide,
   (grounding_decision_spec ⟨"hi", none, some "t1", some "d1", none, none⟩).1
     (by decide)⟩

theorem seconds_to_hms_spec_witness :
    ((-7 : ℚ) < 0 ∧ _seconds_to_hms (-7) = "00:00:00") ∧
    _seconds_to_hms 3725 = "01:02:05" :=
  ⟨⟨by norm_num, (seconds_to_hms_spec (-7)).2.2.1 (by norm_num)⟩,
   (seconds_to_hms_spec (-7)).1⟩

/-! ### C5 — empty transcript window: the raise site and what the client sees -/

/-- Inside the `try` body: when Transcript grounding is selected and the
windowed transcript renders empty, `chatGroundedCall` stops at the
`HTTPException(400, "No transcript content in the requested time range")`
raise site (`main.py:469`), before any LLM call. -/
theorem chat_try_body_empty_range (r : ChatRequest) (docs : List DocumentRecord)
    (transcripts : List TranscriptRecord) (uid tid : String) (t : TranscriptRecord)
    (hdec : groundingDecision r = Grounding.transcript)
    (htid : r.transcript_id = some tid)
    (hget : get_transcript transcripts uid tid = some t)
    (hempty : _build_transcript_context t.segments r.start_time r.end_time = "") :
    chatGroundedCall r docs transcripts uid =
      Except.error (HttpError.e400 "No transcript content in the requested time range") := by
  have hdoc : optStrTruthy r.document_id = false := by
    cases hd : optStrTruthy r.document_id
    · rfl
    · simp [groundingDecision, hd] at hdec
  have htr : (optStrTruthy r.transcript_id &&
      _looks_transcript_related r.message r.start_time r.end_time) = true := by
    cases ht : (optStrTruthy r.transcript_id &&
        _looks_transcript_related r.message r.start_time r.end_time)
    · simp [groundingDecision, hdoc, ht] at hdec
    · rfl
  rw [Bool.and_eq_true] at htr
  obtain ⟨htr1, htr2⟩ := htr
  rw [htid] at htr1
  simp [chatGroundedCall, hdoc, htid, htr1, htr2, hget, hempty]

/-- C5 (code bug): when Transcript grounding is selected and the windowed
transcript renders empty, the handler does fail before any LLM call, and
the raise site is the 400 bad-request the claim describes — but that
`HTTPException` is raised inside the `try` block, subclasses `Exception`
(not `RuntimeError`), and is caught by the blanket `except Exception` at
`main.py:509`, which re-raises `HTTPException(500, "Failed to generate
response: " + str(e))`.  The client therefore sees a 500 — the same
status used for misconfiguration and upstream failures, and the same
status the rewritten 404s produce — not a 400 distinct from 404. -/
theorem transcript_empty_range_rewritten_500 (r : ChatRequest)
    (docs : List DocumentRecord) (transcripts : List TranscriptRecord)
    (uid tid : String) (t : TranscriptRecord)
    (hdec : groundingDecision r = Grounding.transcript)
    (htid : r.transcript_id = some tid)
    (hget : get_transcript transcripts uid tid = some t)
    (hempty : _build_transcript_context t.segments r.start_time r.end_time = "") :
    chatGroundedCall r docs transcripts uid =
      Except.error (HttpError.e400 "No transcript content in the requested time range")
  ∧ (∀ call, chatClientVisible r docs transcripts uid ≠ Except.ok call)
  ∧ chatClientVisible r docs transcripts uid =
      Except.error (HttpError.e500 ("Failed to generate response: " ++
        httpExcStr (HttpError.e400 "No transcript content in the requested time range"))) := by
  have h := chat_try_body_empty_range r docs transcripts uid tid t hdec htid hget hempty
  refine ⟨h, ?_, ?_⟩
  · intro call
    simp [chatClientVisible, h]
  · simp [chatClientVisible, h]

theorem transcript_empty_range_rewritten_500_witness :
    groundingDecision
      ⟨"what was said in the recording?", none,
        some "aaaaaaaaaaaaaaaaaaaaaaaa", none, none, none⟩ = Grounding.transcript ∧
    chatClientVisible
      ⟨"what was said in the recording?", none,
        some "aaaaaaaaaaaaaaaaaaaaaaaa", none, none, none⟩
      [] [⟨"aaaaaaaaaaaaaaaaaaaaaaaa", "u1", []⟩] "u1" =
      Except.error (HttpError.e500 ("Failed to generate response: " ++
        httpExcStr (HttpError.e400 "No transcript content in the requested time range"))) :=
  ⟨by decide,
   (transcript_empty_range_rewritten_500
      ⟨"what was said in the recording?", none,
        some "aaaaaaaaaaaaaaaaaaaaaaaa", none, none, none⟩
      [] [⟨"aaaaaaaaaaaaaaaaaaaaaaaa", "u1", []⟩] "u1"
      "aaaaaaaaaaaaaaaaaaaaaaaa" ⟨"aaaaaaaaaaaaaaaaaaaaaaaa", "u1", []⟩
      (by decide) rfl (by decide) rfl).2.2⟩

/-! ### C7 — placeholder-guarded title update is a frame-preserving write -/

theorem updateFirstRec_forall2 (p : ConvRecord → Bool) (f : ConvRecord → ConvRecord)
    (db : List ConvRecord) :
    List.Forall₂ (fun c c' => c' = c ∨ (p c = true ∧ c' = f c)) db
      (updateFirstRec p f db).1 := by
  induction db with
  | nil => exact List.Forall₂.nil
  | cons c rest ih =>
    rw [updateFirstRec]
    by_cases hp : p c
    · simp only [hp, if_true]
      exact List.Forall₂.cons (Or.inr ⟨hp, rfl⟩)
        (List.forall₂_same.mpr fun a _ => Or.inl rfl)
    · simp only [hp, if_false]
      exact List.Forall₂.cons (Or.inl rfl) ih

/-- C7: `update_conversation_title_if_placeholder` relates each stored
conversation to its post-call state: every record is either left exactly
as it was, or it was owned by the given user, had the given id, still
carried one of the placeholder titles `{"New Chat", "Chat",
"Conversation"}`, and only then had its title replaced by the new one.
In particular a conversation whose title left the placeholder set is
never touched. -/
theorem update_title_placeholder_frame (db : List ConvRecord)
    (uid cid title : String) :
    List.Forall₂ (fun c c' => c' = c ∨
        (c.title ∈ placeholderTitles ∧ c.user_id = uid ∧ c.id = cid ∧
         c' = { c with title := title }))
      db (update_conversation_title_if_placeholder db uid cid title).1 := by
  rw [update_conversation_title_if_placeholder]
  by_cases hv : isValidObjectId cid
  · simp only [hv, if_true]
    refine (updateFirstRec_forall2 (convPlaceholderMatch uid cid)
      (fun c => { c with title := title }) db).imp ?_
    intro a b hab
    rcases hab with rfl | ⟨hm, rfl⟩
    · exact Or.inl rfl
    · right
      simp only [convPlaceholderMatch, Bool.and_eq_true, beq_iff_eq] at hm
      exact ⟨List.mem_of_elem_eq_true hm.2, hm.1.2, hm.1.1, rfl⟩
  · simp only [hv, if_false]
    exact List.forall₂_same.mpr fun a _ => Or.inl rfl

/-! ### C2 — the windower loop as a declarative per-segment filter -/

theorem leEt_iff (a : ℚ) (et : Option ℚ) :
    leEt a et = true ↔ ∀ e, et = some e → a ≤ e := by
  cases et <;> simp [leEt]

theorem segLoop_eq_filterMap (st : ℚ) (et : Option ℚ) (segments : List Segment) :
    segLoop st et segments = segments.filterMap (includeSeg st et) := by
  induction segments with
  | nil => rfl
  | cons s rest ih =>
    rw [segLoop, List.filterMap_cons]
    rcases hs : coerceNum s.start 0 with _ | a
    · simp [includeSeg, hs, ih]
    · rcases he : coerceNum s.«end» a with _ | b
      · simp [includeSeg, hs, he, ih]
      · by_cases ht : pyStrip s.text = ""
        · simp [includeSeg, hs, he, ht, ih]
        · by_cases hcond : (decide (st ≤ b) && leEt a et) = true
          · simp [includeSeg, hs, he, ht, hcond, ih]
          · simp [includeSeg, hs, he, ht, hcond, ih]

theorem includeSeg_iff (st : ℚ) (et : Option ℚ) (s : Segment) (c : ChosenSeg) :
    includeSeg st et s = some c ↔
      ∃ a b, coerceNum s.start 0 = some a ∧ coerceNum s.«end» a = some b ∧
        pyStrip s.text ≠ "" ∧ st ≤ b ∧ (∀ e, et = some e → a ≤ e) ∧
        c = ⟨a, b, pyStrip s.text⟩ := by
  constructor
  · intro h
    rcases hs : coerceNum s.start 0 with _ | a
    · simp [includeSeg, hs] at h
    · rcases he : coerceNum s.«end» a with _ | b
      · simp [includeSeg, hs, he] at h
      · by_cases ht : pyStrip s.text = ""
        · simp [includeSeg, hs, he, ht] at h
        · by_cases hcond : (decide (st ≤ b) && leEt a et) = true
          · have h2 : some (⟨a, b, pyStrip s.text⟩ : ChosenSeg) = some c := by
              rw [← h]
              simp [includeSeg, hs, he, ht, hcond]
            rw [Bool.and_eq_true, decide_eq_true_iff] at hcond
            exact ⟨a, b, rfl, he, ht, hcond.1, (leEt_iff a et).mp hcond.2,
              (Option.some_inj.mp h2).symm⟩
          · simp [includeSeg, hs, he, ht, hcond] at h
  · rintro ⟨a, b, ha, hb, ht, hst, hle, rfl⟩
    have hcond : (decide (st ≤ b) && leEt a et) = true := by
      rw [Bool.and_eq_true, decide_eq_true_iff]
      exact ⟨hst, (leEt_iff a et).mpr hle⟩
    simp [includeSeg, ha, hb, ht, hcond]

/-- C2: the transcript windower keeps exactly the segments whose coerced
end is `≥ st` and coerced start is `≤ et` (with `st = start_time or 0.0`
and `et = end_time or +inf`), skipping segments whose trimmed text is
empty or whose start/end do not coerce; the kept segments are rendered
whole (never clipped or split), one bracketed line each, joined by
newlines in their given order with no re-sorting (subject only to the
global 120000-character cut of C4). -/
theorem build_transcript_context_spec (segments : List Segment)
    (start_time end_time : Option ℚ) :
    segLoop (start_time.getD 0) end_time segments =
      segments.filterMap (includeSeg (start_time.getD 0) end_time)
  ∧ _build_transcript_context segments start_time end_time =
      takeChars (String.intercalate "\n"
        ((segments.filterMap (includeSeg (start_time.getD 0) end_time)).map
          renderSegLine)) 120000
  ∧ (∀ st et (s : Segment) (c : ChosenSeg), includeSeg st et s = some c ↔
      ∃ a b, coerceNum s.start 0 = some a ∧ coerceNum s.«end» a = some b ∧
        pyStrip s.text ≠ "" ∧ st ≤ b ∧ (∀ e, et = some e → a ≤ e) ∧
        c = ⟨a, b, pyStrip s.text⟩) := by
  refine ⟨segLoop_eq_filterMap _ _ _, ?_, fun st et s c => includeSeg_iff st et s c⟩
  rw [build_context_eq, segLoop_eq_filterMap]
  rcases segments.filterMap (includeSeg (start_time.getD 0) end_time) with _ | ⟨c, rest⟩
  · rfl
  · rfl

theorem build_transcript_context_spec_witness :
    includeSeg 0 none ⟨FloatVal.coerces 0, FloatVal.coerces 5, "hello"⟩ =
      some ⟨0, 5, "hello"⟩ ∧
    pyStrip "hello" ≠ "" :=
  ⟨((build_transcript_context_spec [] none none).2.2 0 none
      ⟨FloatVal.coerces 0, FloatVal.coerces 5, "hello"⟩ ⟨0, 5, "hello"⟩).mpr
    ⟨0, 5, rfl, rfl, by decide, by norm_num, by simp, by decide⟩,
   by decide⟩

/-! ### C3 — transcript-relatedness heuristic -/

theorem leadsWith_iff (needle hay : List Char) :
    leadsWith needle hay = true ↔ ∃ r, hay = needle ++ r := by
  induction needle generalizing hay with
  | nil =>
    simp [leadsWith]
  | cons a as ih =>
    cases hay with
    | nil => simp [leadsWith]
    | cons b bs =>
      rw [leadsWith, Bool.and_eq_true, beq_iff_eq, ih]
      constructor
      · rintro ⟨rfl, r, rfl⟩
        exact ⟨r, rfl⟩
      · rintro ⟨r, h⟩
        rw [List.cons_append, List.cons.injEq] at h
        exact ⟨h.1.symm, r, h.2⟩

theorem containsSub_iff (hay needle : List Char) :
    containsSub hay needle = true ↔ ∃ l r, hay = l ++ needle ++ r := by
  induction hay with
  | nil =>
    rw [containsSub, Bool.or_eq_true, leadsWith_iff]
    constructor
    · rintro (⟨r, hr⟩ | h)
      · exact ⟨[], r, by simpa using hr⟩
      · simp at h
    · rintro ⟨l, r, h⟩
      rw [List.append_assoc] at h
      left
      rcases List.append_eq_nil.mp h.symm with ⟨rfl, h2⟩
      exact ⟨r, by simpa using h2.symm⟩
  | cons c t ih =>
    rw [containsSub, Bool.or_eq_true, leadsWith_iff, ih]
    constructor
    · rintro (⟨r, hr⟩ | ⟨l, r, rfl⟩)
      · exact ⟨[], r, by simpa using hr⟩
      · exact ⟨c :: l, r, rfl⟩
    · rintro ⟨l, r, h⟩
      cases l with
      | nil =>
        left
        exact ⟨r, by simpa using h⟩
      | cons x xs =>
        right
        rw [List.cons_append, List.cons_append, List.cons.injEq] at h
        exact ⟨xs, r, h.2⟩

theorem tsTail_iff (cs : List Char) :
    tsTail cs = true ↔
      ((∃ f1 f2 rest, cs = ':' :: f1 :: f2 :: rest ∧ isDigitChar f1 = true ∧
          isDigitChar f2 = true ∧ boundaryAfterB rest = true) ∨
       boundaryAfterB cs = true) := by
  rcases cs with _ | ⟨c, _ | ⟨f1, _ | ⟨f2, rest⟩⟩⟩ <;>
    simp [tsTail, Bool.and_eq_true, beq_iff_eq, List.cons.injEq, and_assoc]

theorem tsAfterColon_iff (cs : List Char) :
    tsAfterColon cs = true ↔
      ∃ e1 e2 rest, cs = e1 :: e2 :: rest ∧ isDigitChar e1 = true ∧
        isDigitChar e2 = true ∧ tsTail rest = true := by
  rcases cs with _ | ⟨e1, _ | ⟨e2, rest⟩⟩ <;>
    simp [tsAfterColon, Bool.and_eq_true, and_assoc]

theorem tsTwoDigit_iff (cs : List Char) :
    tsTwoDigit cs = true ↔
      ∃ d2 rest2, cs = d2 :: ':' :: rest2 ∧ isDigitChar d2 = true ∧
        tsAfterColon rest2 = true := by
  rcases cs with _ | ⟨d2, _ | ⟨c, rest2⟩⟩ <;>
    simp [tsTwoDigit, Bool.and_eq_true, beq_iff_eq, and_assoc] <;>
    aesop

theorem tsOneDigit_iff (cs : List Char) :
    tsOneDigit cs = true ↔
      ∃ rest2, cs = ':' :: rest2 ∧ tsAfterColon rest2 = true := by
  rcases cs with _ | ⟨c, rest2⟩ <;>
    simp [tsOneDigit, Bool.and_eq_true, beq_iff_eq] <;>
    aesop

theorem tsMatchCore_iff (cs : List Char) :
    tsMatchCore cs = true ↔ ClockTimeAt cs := by
  constructor
  · intro h
    rcases cs with _ | ⟨d1, rest1⟩
    · simp [tsMatchCore] at h
    · rw [show tsMatchCore (d1 :: rest1) =
          (isDigitChar d1 && (tsTwoDigit rest1 || tsOneDigit rest1)) from rfl,
        Bool.and_eq_true, Bool.or_eq_true] at h
      obtain ⟨hd1, h2 | h1⟩ := h
      · obtain ⟨d2, rest2, rfl, hd2, hac⟩ := (tsTwoDigit_iff rest1).mp h2
        obtain ⟨e1, e2, rest3, rfl, he1, he2, htail⟩ :=
          (tsAfterColon_iff rest2).mp hac
        rcases (tsTail_iff rest3).mp htail with
          ⟨f1, f2, rest4, rfl, hf1, hf2, hb⟩ | hb
        · refine ⟨[d1, d2], [e1, e2], some [f1, f2], rest4, by simp [timeToken],
            ?_, Or.inr rfl, ?_, rfl, ?_, hb⟩
          · simp [DigitStr, hd1, hd2]
          · simp [DigitStr, he1, he2]
          · intro g hg
            cases hg
            exact ⟨by simp [DigitStr, hf1, hf2], rfl⟩
        · refine ⟨[d1, d2], [e1, e2], none, rest3, by simp [timeToken],
            ?_, Or.inr rfl, ?_, rfl, ?_, hb⟩
          · simp [DigitStr, hd1, hd2]
          · simp [DigitStr, he1, he2]
          · intro g hg
            cases hg
      · obtain ⟨rest2, rfl, hac⟩ := (tsOneDigit_iff rest1).mp h1
        obtain ⟨e1, e2, rest3, rfl, he1, he2, htail⟩ :=
          (tsAfterColon_iff rest2).mp hac
        rcases (tsTail_iff rest3).mp htail with
          ⟨f1, f2, rest4, rfl, hf1, hf2, hb⟩ | hb
        · refine ⟨[d1], [e1, e2], some [f1, f2], rest4, by simp [timeToken],
            ?_, Or.inl rfl, ?_, rfl, ?_, hb⟩
          · simp [DigitStr, hd1]
          · simp [DigitStr, he1, he2]
          · intro g hg
            cases hg
            exact ⟨by simp [DigitStr, hf1, hf2], rfl⟩
        · refine ⟨[d1], [e1, e2], none, rest3, by simp [timeToken],
            ?_, Or.inl rfl, ?_, rfl, ?_, hb⟩
          · simp [DigitStr, hd1]
          · simp [DigitStr, he1, he2]
          · intro g hg
            cases hg
  · rintro ⟨d, e, f, post, rfl, hd, hdl, he, hel, hf, hb⟩
    obtain ⟨e1, e2, rfl⟩ := List.length_eq_two.mp hel
    simp only [DigitStr, List.mem_cons, List.not_mem_nil, or_false,
      forall_eq_or_imp, forall_eq] at he
    rcases hdl with h1 | h2
    · obtain ⟨a, rfl⟩ := List.length_eq_one.mp h1
      simp only [DigitStr, List.mem_cons, List.not_mem_nil, or_false,
        forall_eq_or_imp, forall_eq, List.mem_singleton] at hd
      rcases f with _ | g
      · simp [timeToken, tsMatchCore, tsOneDigit, tsTwoDigit, tsAfterColon,
          tsTail, hd, he.1, he.2, hb]
      · obtain ⟨hgd, hgl⟩ := hf g rfl
        obtain ⟨g1, g2, rfl⟩ := List.length_eq_two.mp hgl
        simp only [DigitStr, List.mem_cons, List.not_mem_nil, or_false,
          forall_eq_or_imp, forall_eq] at hgd
        simp [timeToken, tsMatchCore, tsOneDigit, tsTwoDigit, tsAfterColon,
          tsTail, hd, he.1, he.2, hgd.1, hgd.2, hb]
    · obtain ⟨a, b, rfl⟩ := List.length_eq_two.mp h2
      simp only [DigitStr, List.mem_cons, List.not_mem_nil, or_false,
        forall_eq_or_imp, forall_eq] at hd
      rcases f with _ | g
      · simp [timeToken, tsMatchCore, tsOneDigit, tsTwoDigit, tsAfterColon,
          tsTail, hd.1, hd.2, he.1, he.2, hb]
      · obtain ⟨hgd, hgl⟩ := hf g rfl
        obtain ⟨g1, g2, rfl⟩ := List.length_eq_two.mp hgl
        simp only [DigitStr, List.mem_cons, List.not_mem_nil, or_false,
          forall_eq_or_imp, forall_eq] at hgd
        simp [timeToken, tsMatchCore, tsOneDigit, tsTwoDigit, tsAfterColon,
          tsTail, hd.1, hd.2, he.1, he.2, hgd.1, hgd.2, hb]

theorem tsSearch_iff (cs : List Char) : ∀ prev : Option Char,
    tsSearch prev cs = true ↔
      ∃ pre rest, cs = pre ++ rest ∧
        boundaryBeforeB (lastCharAfter prev pre) = true ∧
        tsMatchCore rest = true := by
  induction cs with
  | nil =>
    intro prev
    rw [show tsSearch prev [] = false from rfl]
    constructor
    · intro h
      cases h
    · rintro ⟨pre, rest, h, hb, hm⟩
      obtain ⟨rfl, rfl⟩ := List.append_eq_nil.mp h.symm
      simp [tsMatchCore] at hm
  | cons c cs' ih =>
    intro prev
    rw [show tsSearch prev (c :: cs') =
        ((boundaryBeforeB prev && tsMatchCore (c :: cs')) || tsSearch (some c) cs')
        from rfl,
      Bool.or_eq_true, Bool.and_eq_true, ih (some c)]
    constructor
    · rintro (⟨hb, hm⟩ | ⟨pre, rest, rfl, hb, hm⟩)
      · exact ⟨[], c :: cs', rfl, hb, hm⟩
      · exact ⟨c :: pre, rest, rfl, hb, hm⟩
    · rintro ⟨pre, rest, heq, hb, hm⟩
      cases pre with
      | nil =>
        left
        rw [List.nil_append] at heq
        rw [heq]
        exact ⟨hb, hm⟩
      | cons x xs =>
        right
        rw [List.cons_append, List.cons.injEq] at heq
        obtain ⟨rfl, heq2⟩ := heq
        exact ⟨xs, rest, heq2, hb, hm⟩

/-- The scanner `tsSearch` (the embedding of `_TS_RE.search`) succeeds
exactly when the message decomposes around a word-bounded clock-time
token. -/
theorem tsSearch_none_iff (cs : List Char) :
    tsSearch none cs = true ↔ HasClockTime cs := by
  rw [tsSearch_iff cs none]
  unfold HasClockTime
  exact exists₂_congr fun pre rest =>
    and_congr_right fun _ => and_congr_right fun _ => tsMatchCore_iff rest

theorem looks_eq_none_none (message : String) :
    _looks_transcript_related message none none =
      (if pyLower (pyStrip message) = "" then false
       else if tsSearch none (pyLower (pyStrip message)).data then true
       else transcriptKeywords.any
         (fun k => containsSub (pyLower (pyStrip message)).data k.data)) := rfl

/-- C3: the heuristic fires exactly when a time window is given, or the
trimmed lowercased message is non-empty and either contains a
word-bounded clock-time token `\d{1,2}:\d{2}(:\d{2})?` or contains one of
the fixed keywords as a substring; an empty or whitespace-only message
with no time window yields false. -/
theorem looks_transcript_related_spec (message : String)
    (start_time end_time : Option ℚ) :
    (_looks_transcript_related message start_time end_time = true ↔
      (start_time ≠ none ∨ end_time ≠ none ∨
        (pyLower (pyStrip message) ≠ "" ∧
          (HasClockTime (pyLower (pyStrip message)).data ∨
           ∃ k ∈ transcriptKeywords, ∃ l r,
             (pyLower (pyStrip message)).data = l ++ k.data ++ r))))
  ∧ (pyStrip message = "" → start_time = none → end_time = none →
      _looks_transcript_related message start_time end_time = false) := by
  constructor
  · rcases start_time with _ | q1
    · rcases end_time with _ | q2
      · rw [looks_eq_none_none]
        by_cases htext : pyLower (pyStrip message) = ""
        · simp [htext]
        · rw [if_neg htext]
          by_cases hts : tsSearch none (pyLower (pyStrip message)).data = true
          · rw [if_pos hts]
            constructor
            · intro _
              exact Or.inr (Or.inr ⟨htext, Or.inl ((tsSearch_none_iff _).mp hts)⟩)
            · intro _
              rfl
          · rw [if_neg hts, List.any_eq_true]
            constructor
            · rintro ⟨k, hk, hc⟩
              exact Or.inr (Or.inr
                ⟨htext, Or.inr ⟨k, hk, (containsSub_iff _ _).mp hc⟩⟩)
            · rintro (h | h | ⟨_, hck | ⟨k, hk, l, r, hlr⟩⟩)
              · exact absurd rfl h
              · exact absurd rfl h
              · exact absurd ((tsSearch_none_iff _).mpr hck) hts
              · exact ⟨k, hk, (containsSub_iff _ _).mpr ⟨l, r, hlr⟩⟩
      · simp [_looks_transcript_related]
    · simp [_looks_transcript_related]
  · intro h1 h2 h3
    subst h2
    subst h3
    rw [looks_eq_none_none]
    have htext : pyLower (pyStrip message) = "" := by
      rw [h1]
      rfl
    rw [if_pos htext]

theorem looks_transcript_related_spec_witness :
    pyStrip "   " = "" ∧
    _looks_transcript_related "   " none none = false :=
  ⟨by decide,
   (looks_transcript_related_spec "   " none none).2 (by decide) rfl rfl⟩

/-! ### C8 — title generation -/

theorem cleanTitle_length (t : String) : (cleanTitle t).length ≤ 80 := by
  simp only [cleanTitle]
  split
  · decide
  · exact takeChars_length _ _

/-- C8 (counterexample to the claim as written): on the LLM reply
`""T""` the source strips *both* layers of surrounding double quotes
(`str.strip` removes every leading/trailing occurrence), producing `T`,
while the claim's "single layer of surrounding quote characters
stripped" post-processing (`titleClaimPost`) produces `"T"`. -/
theorem generate_chat_title_claim_counterexample :
    generate_chat_title "hi" "" "\"\"T\"\"" = "T" ∧
    titleClaimPost "\"\"T\"\"" = "\"T\"" ∧
    generate_chat_title "hi" "" "\"\"T\"\"" ≠ titleClaimPost "\"\"T\"\"" :=
  ⟨by decide, by decide, by decide⟩

/-- C8 (amended): `generate_chat_title` returns the literal `"New Chat"`
without invoking the LLM when both trimmed inputs are empty; otherwise
its result is `cleanTitle` of the LLM output — whitespace-stripped, with
*all* leading/trailing double quotes stripped and then all
leading/trailing single quotes stripped, newlines and carriage returns
collapsed to spaces, re-stripped, replaced by `"New Chat"` when that
leaves nothing, and clamped to at most 80 characters. -/
theorem generate_chat_title_spec (u a out : String) :
    (pyStrip u = "" → pyStrip a = "" →
      generate_chat_title u a out = "New Chat" ∧ titleInvokesLLM u a = false)
  ∧ (¬ (pyStrip u = "" ∧ pyStrip a = "") →
      generate_chat_title u a out = cleanTitle out ∧ titleInvokesLLM u a = true)
  ∧ (generate_chat_title u a out).length ≤ 80 := by
  refine ⟨?_, ?_, ?_⟩
  · intro h1 h2
    constructor
    · simp [generate_chat_title, h1, h2]
    · simp [titleInvokesLLM, h1, h2]
  · intro h
    constructor
    · simp [generate_chat_title, h]
    · by_cases h1 : pyStrip u = ""
      · have h2 : ¬ pyStrip a = "" := fun h2 => h ⟨h1, h2⟩
        simp [titleInvokesLLM, h1, h2]
      · simp [titleInvokesLLM, h1]
  · by_cases h : pyStrip u = "" ∧ pyStrip a = ""
    · have : generate_chat_title u a out = "New Chat" := by
        simp [generate_chat_title, h]
      rw [this]
      decide
    · have : generate_chat_title u a out = cleanTitle out := by
        simp [generate_chat_title, h]
      rw [this]
      exact cleanTitle_length out

theorem generate_chat_title_spec_witness :
    pyStrip "" = "" ∧ generate_chat_title "" "" "anything" = "New Chat" :=
  ⟨by decide,
   ((generate_chat_title_spec "" "" "anything").1 (by decide) (by decide)).1⟩
